import Mathlib

/-!
Verification of the 2D robotic arm simulator (`arm.py`).

The development shallowly embeds the arithmetic core of the program:
the inverse-kinematics solver `inverse_kinematics`, the pose derivation
performed at the top of `draw_arm`, and the two bounded history buffers
(`trail_points`, capacity 20, and `mouse_path`, capacity 60) updated in
the main loop.  Python floats are modelled as real numbers; the library
function `math.atan2 (y, x)` is modelled as the argument of the complex
number `x + y*I` (the angle of the vector `(x, y)` in `(-π, π]`, with
`atan2 0 0 = 0`, exactly the mathematical function `atan2` computes).
`math.acos`, which raises a `ValueError` outside `[-1, 1]`, is modelled
both as total `Real.arccos` (used by `inverse_kinematics`, justified by
the clamp) and as a checked variant returning `Except` (used to reason
about the absence of domain errors).
-/

namespace Arm

noncomputable section

/-- Window width, `WIDTH = 1000` in the source. -/
def WIDTH : ℕ := 1000

/-- Window height, `HEIGHT = 700` in the source. -/
def HEIGHT : ℕ := 700

/-- Length of the first arm segment, `L1 = 150`. -/
def L1 : ℝ := 150

/-- Length of the second arm segment, `L2 = 150`. -/
def L2 : ℝ := 150

/-- `BASE_X = WIDTH // 3` (integer division, hence 333). -/
def BASE_X : ℝ := ((WIDTH / 3 : ℕ) : ℝ)

/-- `BASE_Y = HEIGHT // 2` (integer division, hence 350). -/
def BASE_Y : ℝ := ((HEIGHT / 2 : ℕ) : ℝ)

/-- Model of the library function `math.atan2(y, x)`: the angle of the
vector `(x, y)`, i.e. the argument of the complex number `x + y*I`,
lying in `(-π, π]`, with `atan2 0 0 = 0`. -/
def atan2 (y x : ℝ) : ℝ := Complex.arg (↑x + ↑y * Complex.I)

/-- Embedding of `inverse_kinematics(x, y)` from `arm.py` lines 89–100.
Returns `none` for an unreachable target, otherwise
`some (theta1, theta2, k1, k2)`. -/
def inverse_kinematics (x y : ℝ) : Option (ℝ × ℝ × ℝ × ℝ) :=
  let distance := Real.sqrt (x ^ 2 + y ^ 2)
  if distance > L1 + L2 then none
  else
    let cos_angle2 := (x ^ 2 + y ^ 2 - L1 ^ 2 - L2 ^ 2) / (2 * L1 * L2)
    let cos_angle2 := max (-1) (min 1 cos_angle2)
    let theta2 := Real.arccos cos_angle2
    let k1 := L1 + L2 * Real.cos theta2
    let k2 := L2 * Real.sin theta2
    let theta1 := atan2 y x - atan2 k2 k1
    some (theta1, theta2, k1, k2)

/-- Model of `math.acos`: raises (`Except.error`) outside `[-1, 1]`,
as the Python library function does. -/
def acos_checked (c : ℝ) : Except String ℝ :=
  if -1 ≤ c ∧ c ≤ 1 then .ok (Real.arccos c) else .error "math domain error"

/-- `inverse_kinematics` with the fallible `math.acos` made explicit:
an `Except.error` result models a raised `ValueError`. -/
def inverse_kinematics_checked (x y : ℝ) :
    Except String (Option (ℝ × ℝ × ℝ × ℝ)) :=
  let distance := Real.sqrt (x ^ 2 + y ^ 2)
  if distance > L1 + L2 then .ok none
  else
    let cos_angle2 := (x ^ 2 + y ^ 2 - L1 ^ 2 - L2 ^ 2) / (2 * L1 * L2)
    let cos_angle2 := max (-1) (min 1 cos_angle2)
    match acos_checked cos_angle2 with
    | .error e => .error e
    | .ok theta2 =>
      let k1 := L1 + L2 * Real.cos theta2
      let k2 := L2 * Real.sin theta2
      let theta1 := atan2 y x - atan2 k2 k1
      .ok (some (theta1, theta2, k1, k2))

/-- The pose computation at the top of `draw_arm` (`arm.py` lines 205–209):
`(joint_x, joint_y, end_x, end_y)` from the two joint angles. -/
def draw_arm_pose (theta1 theta2 : ℝ) : ℝ × ℝ × ℝ × ℝ :=
  let joint_x := BASE_X + L1 * Real.cos theta1
  let joint_y := BASE_Y - L1 * Real.sin theta1
  let end_x := joint_x + L2 * Real.cos (theta1 + theta2)
  let end_y := joint_y - L2 * Real.sin (theta1 + theta2)
  (joint_x, joint_y, end_x, end_y)

/-- Capacity of the pointer trail, `MAX_TRAIL_LENGTH = 20`. -/
def MAX_TRAIL_LENGTH : ℕ := 20

/-- Capacity of the end-effector path, `MAX_PATH_LENGTH = 60`. -/
def MAX_PATH_LENGTH : ℕ := 60

/-- One buffer insertion as performed in the main loop:
`buf.append(p); if len(buf) > cap: buf.pop(0)`. -/
def trailPush {α : Type} (cap : ℕ) (buf : List α) (p : α) : List α :=
  let buf2 := buf ++ [p]
  if buf2.length > cap then buf2.tail else buf2

/-- One iteration of the main loop restricted to the state it carries
across frames: the pointer trail and the end-effector path
(`arm.py` lines 375–399).  The mouse position is pushed onto the trail;
the target is converted to arm coordinates; on a `some` IK result the
pose is derived and its end point pushed onto the path, on `none`
the path is left untouched. -/
def tick (s : List (ℝ × ℝ) × List (ℝ × ℝ)) (mouse : ℝ × ℝ) :
    List (ℝ × ℝ) × List (ℝ × ℝ) :=
  let trail := trailPush MAX_TRAIL_LENGTH s.1 mouse
  match inverse_kinematics (mouse.1 - BASE_X) (BASE_Y - mouse.2) with
  | none => (trail, s.2)
  | some r =>
      let pose := draw_arm_pose r.1 r.2.1
      (trail, trailPush MAX_PATH_LENGTH s.2 (pose.2.2.1, pose.2.2.2))

/-! ### Spec-side definitions

These follow the wording of the specification (§4.2, §4.3) and are
compared with the embedded code. -/

/-- Spec §4.2: clamp a value to the interval `[-1, 1]`. -/
def clampToUnit (c : ℝ) : ℝ := if c < -1 then -1 else if 1 < c then 1 else c

/-- Spec §4.2: `cosTheta2 = (x² + y² − L1² − L2²) / (2·L1·L2)`,
clamped to `[-1, 1]`. -/
def spec_cosTheta2 (x y : ℝ) : ℝ :=
  clampToUnit ((x ^ 2 + y ^ 2 - L1 ^ 2 - L2 ^ 2) / (2 * L1 * L2))

/-- Spec §4.2: `theta2 = arccos(cosTheta2)`. -/
def spec_theta2 (x y : ℝ) : ℝ := Real.arccos (spec_cosTheta2 x y)

/-- Spec §4.2: `k1 = L1 + L2·cos(theta2)`. -/
def spec_k1 (x y : ℝ) : ℝ := L1 + L2 * Real.cos (spec_theta2 x y)

/-- Spec §4.2: `k2 = L2·sin(theta2)`. -/
def spec_k2 (x y : ℝ) : ℝ := L2 * Real.sin (spec_theta2 x y)

/-- Spec §4.2: `theta1 = atan2(y, x) − atan2(k2, k1)`. -/
def spec_theta1 (x y : ℝ) : ℝ :=
  atan2 y x - atan2 (spec_k2 x y) (spec_k1 x y)

/-- Spec §4.3: `joint = base + (L1·cos(theta1), -L1·sin(theta1))`. -/
def spec_joint (t1 : ℝ) : ℝ × ℝ :=
  (BASE_X + L1 * Real.cos t1, BASE_Y + -(L1 * Real.sin t1))

/-- Spec §4.3: `end = joint + (L2·cos(theta1+theta2), -L2·sin(theta1+theta2))`. -/
def spec_end (t1 t2 : ℝ) : ℝ × ℝ :=
  ((spec_joint t1).1 + L2 * Real.cos (t1 + t2),
   (spec_joint t1).2 + -(L2 * Real.sin (t1 + t2)))

/-! ### Basic facts about the solver -/

lemma clamp_eq (c : ℝ) : max (-1) (min 1 c) = clampToUnit c := by
  unfold clampToUnit
  split_ifs with h1 h2
  · rw [min_eq_right (by linarith), max_eq_left (by linarith)]
  · rw [min_eq_left (by linarith), max_eq_right (by norm_num)]
  · rw [min_eq_right (by linarith), max_eq_right (by linarith)]

lemma ik_eval (x y : ℝ) (h : Real.sqrt (x ^ 2 + y ^ 2) ≤ L1 + L2) :
    inverse_kinematics x y =
      some (spec_theta1 x y, spec_theta2 x y, spec_k1 x y, spec_k2 x y) := by
  unfold inverse_kinematics
  rw [if_neg (not_lt.mpr h)]
  simp only [spec_theta1, spec_k1, spec_k2, spec_theta2, spec_cosTheta2, clamp_eq]

lemma ik_none (x y : ℝ) (h : L1 + L2 < Real.sqrt (x ^ 2 + y ^ 2)) :
    inverse_kinematics x y = none := by
  unfold inverse_kinematics
  rw [if_pos h]

lemma clampToUnit_mem (c : ℝ) : -1 ≤ clampToUnit c ∧ clampToUnit c ≤ 1 := by
  unfold clampToUnit
  split_ifs with h1 h2
  · exact ⟨le_refl _, by norm_num⟩
  · exact ⟨by norm_num, le_refl _⟩
  · exact ⟨not_lt.mp h1, not_lt.mp h2⟩

lemma spec_cosTheta2_bounds (x y : ℝ) :
    -1 ≤ spec_cosTheta2 x y ∧ spec_cosTheta2 x y ≤ 1 :=
  clampToUnit_mem _

lemma spec_cosTheta2_eq_raw (x y : ℝ) (h : Real.sqrt (x ^ 2 + y ^ 2) ≤ L1 + L2) :
    spec_cosTheta2 x y = (x ^ 2 + y ^ 2 - L1 ^ 2 - L2 ^ 2) / (2 * L1 * L2) := by
  have h0 : (0:ℝ) ≤ x ^ 2 + y ^ 2 := by positivity
  have hsum : x ^ 2 + y ^ 2 ≤ (L1 + L2) ^ 2 := by
    have hs := Real.sq_sqrt h0
    nlinarith [Real.sqrt_nonneg (x ^ 2 + y ^ 2)]
  have hden : (0:ℝ) < 2 * L1 * L2 := by norm_num [L1, L2]
  have hub : (x ^ 2 + y ^ 2 - L1 ^ 2 - L2 ^ 2) / (2 * L1 * L2) ≤ 1 := by
    rw [div_le_one hden]
    nlinarith [hsum]
  have hlb : (-1:ℝ) ≤ (x ^ 2 + y ^ 2 - L1 ^ 2 - L2 ^ 2) / (2 * L1 * L2) := by
    rw [le_div_iff₀ hden]
    have hL1 : L1 = 150 := rfl
    have hL2 : L2 = 150 := rfl
    rw [hL1, hL2]
    nlinarith [h0]
  unfold spec_cosTheta2 clampToUnit
  rw [if_neg (not_lt.mpr hlb), if_neg (not_lt.mpr hub)]

lemma spec_theta2_range (x y : ℝ) :
    0 ≤ spec_theta2 x y ∧ spec_theta2 x y ≤ Real.pi :=
  ⟨Real.arccos_nonneg _, Real.arccos_le_pi _⟩

lemma cos_spec_theta2 (x y : ℝ) :
    Real.cos (spec_theta2 x y) = spec_cosTheta2 x y :=
  Real.cos_arccos (spec_cosTheta2_bounds x y).1 (spec_cosTheta2_bounds x y).2

lemma sin_spec_theta2 (x y : ℝ) :
    Real.sin (spec_theta2 x y) = Real.sqrt (1 - spec_cosTheta2 x y ^ 2) :=
  Real.sin_arccos _

lemma k_sq (x y : ℝ) (h : Real.sqrt (x ^ 2 + y ^ 2) ≤ L1 + L2) :
    spec_k1 x y ^ 2 + spec_k2 x y ^ 2 = x ^ 2 + y ^ 2 := by
  have hb := spec_cosTheta2_bounds x y
  have hsq : Real.sqrt (1 - spec_cosTheta2 x y ^ 2) ^ 2 = 1 - spec_cosTheta2 x y ^ 2 :=
    Real.sq_sqrt (by nlinarith [hb.1, hb.2])
  have hmul : spec_cosTheta2 x y * (2 * L1 * L2) = x ^ 2 + y ^ 2 - L1 ^ 2 - L2 ^ 2 := by
    have hne : (2 * L1 * L2 : ℝ) ≠ 0 := by norm_num [L1, L2]
    rw [spec_cosTheta2_eq_raw x y h, div_mul_cancel₀ _ hne]
  unfold spec_k1 spec_k2
  rw [cos_spec_theta2, sin_spec_theta2]
  linear_combination L2 ^ 2 * hsq + hmul

/-! ### The angle function `atan2` -/

lemma add_mul_I_ne_zero {x y : ℝ} (h : x ^ 2 + y ^ 2 ≠ 0) :
    (↑x + ↑y * Complex.I) ≠ 0 := by
  intro h0
  apply h
  have hx : x = 0 := by simpa using congrArg Complex.re h0
  have hy : y = 0 := by simpa using congrArg Complex.im h0
  rw [hx, hy]
  ring

lemma cos_atan2 {y x : ℝ} (h : x ^ 2 + y ^ 2 ≠ 0) :
    Real.cos (atan2 y x) = x / Real.sqrt (x ^ 2 + y ^ 2) := by
  unfold atan2
  rw [Complex.cos_arg (add_mul_I_ne_zero h), Complex.abs_apply, Complex.normSq_add_mul_I]
  simp

lemma sin_atan2 (y x : ℝ) :
    Real.sin (atan2 y x) = y / Real.sqrt (x ^ 2 + y ^ 2) := by
  unfold atan2
  rw [Complex.sin_arg, Complex.abs_apply, Complex.normSq_add_mul_I]
  simp

/-! ### Forward kinematics inverts the solver -/

lemma fk_eq (x y : ℝ) (h : Real.sqrt (x ^ 2 + y ^ 2) ≤ L1 + L2) :
    spec_k1 x y * Real.cos (spec_theta1 x y) - spec_k2 x y * Real.sin (spec_theta1 x y) = x ∧
    spec_k1 x y * Real.sin (spec_theta1 x y) + spec_k2 x y * Real.cos (spec_theta1 x y) = y := by
  have hk := k_sq x y h
  by_cases hz : x ^ 2 + y ^ 2 = 0
  · have hx : x = 0 := by nlinarith [sq_nonneg x, sq_nonneg y]
    have hy : y = 0 := by nlinarith [sq_nonneg x, sq_nonneg y]
    rw [hz] at hk
    have hk1 : spec_k1 x y = 0 := by
      nlinarith [sq_nonneg (spec_k1 x y), sq_nonneg (spec_k2 x y)]
    have hk2 : spec_k2 x y = 0 := by
      nlinarith [sq_nonneg (spec_k1 x y), sq_nonneg (spec_k2 x y)]
    rw [hk1, hk2, hx, hy]
    constructor <;> ring
  · have h0 : (0:ℝ) ≤ x ^ 2 + y ^ 2 := by positivity
    have hr2 : Real.sqrt (x ^ 2 + y ^ 2) ^ 2 = x ^ 2 + y ^ 2 := Real.sq_sqrt h0
    have hrpos : 0 < Real.sqrt (x ^ 2 + y ^ 2) :=
      Real.sqrt_pos.mpr (lt_of_le_of_ne h0 (Ne.symm hz))
    have hrne : Real.sqrt (x ^ 2 + y ^ 2) ≠ 0 := ne_of_gt hrpos
    have hkz : spec_k1 x y ^ 2 + spec_k2 x y ^ 2 ≠ 0 := by rw [hk]; exact hz
    have habs : Real.sqrt (spec_k1 x y ^ 2 + spec_k2 x y ^ 2) = Real.sqrt (x ^ 2 + y ^ 2) := by
      rw [hk]
    have hcψ := cos_atan2 hz
    have hsψ := sin_atan2 y x
    have hcφ : Real.cos (atan2 (spec_k2 x y) (spec_k1 x y)) =
        spec_k1 x y / Real.sqrt (x ^ 2 + y ^ 2) := by
      rw [cos_atan2 hkz, habs]
    have hsφ : Real.sin (atan2 (spec_k2 x y) (spec_k1 x y)) =
        spec_k2 x y / Real.sqrt (x ^ 2 + y ^ 2) := by
      rw [sin_atan2, habs]
    unfold spec_theta1
    rw [Real.cos_sub, Real.sin_sub, hcψ, hsψ, hcφ, hsφ]
    constructor
    · field_simp
      linear_combination x * hk
    · field_simp
      linear_combination y * hk

/-! ### Buffer discipline -/

lemma trailPush_big {α : Type} (cap : ℕ) (buf : List α) (p : α)
    (h : buf.length = cap) : trailPush cap buf p = (buf ++ [p]).tail := by
  unfold trailPush
  rw [if_pos]
  simp [h]

lemma trailPush_small {α : Type} (cap : ℕ) (buf : List α) (p : α)
    (h : buf.length < cap) : trailPush cap buf p = buf ++ [p] := by
  unfold trailPush
  rw [if_neg]
  simp only [List.length_append, List.length_singleton, not_lt]
  omega

lemma foldl_trailPush {α : Type} (cap : ℕ) (xs : List α) :
    ∀ buf : List α, buf.length ≤ cap →
      List.foldl (trailPush cap) buf xs =
        (buf ++ xs).drop (buf.length + xs.length - cap) := by
  induction xs with
  | nil =>
      intro buf h
      simp [Nat.sub_eq_zero_of_le h]
  | cons p rest ih =>
      intro buf h
      rw [List.foldl_cons]
      rcases lt_or_eq_of_le h with hlt | heq
      · rw [trailPush_small cap buf p hlt, ih (buf ++ [p]) (by simp; omega)]
        have hidx : (buf ++ [p]).length + rest.length - cap
            = buf.length + (p :: rest).length - cap := by
          simp only [List.length_append, List.length_singleton, List.length_cons, List.length_nil]
          omega
        rw [List.append_assoc, List.singleton_append, hidx]
      · rw [trailPush_big cap buf p heq, ih _ (by simp [List.length_tail, heq])]
        have h1 : (buf ++ [p]).tail ++ rest = (buf ++ p :: rest).drop 1 := by
          rw [← List.drop_one, ← List.drop_append_of_le_length (by simp),
            List.append_assoc, List.singleton_append]
        rw [h1, List.drop_drop]
        have hidx : 1 + ((buf ++ [p]).tail.length + rest.length - cap)
            = buf.length + (p :: rest).length - cap := by
          rw [List.length_tail]
          simp only [List.length_append, List.length_singleton, List.length_cons, List.length_nil]
          omega
        rw [hidx]

lemma foldl_trailPush_nil {α : Type} (cap : ℕ) (xs : List α) :
    List.foldl (trailPush cap) [] xs = xs.drop (xs.length - cap) := by
  have h := foldl_trailPush cap xs [] (by simp)
  simpa using h

lemma foldl_trailPush_length {α : Type} (cap : ℕ) (xs : List α) :
    (List.foldl (trailPush cap) [] xs).length ≤ cap := by
  rw [foldl_trailPush_nil, List.length_drop]
  omega

/-! ### The per-frame state step -/

lemma tick_unreachable (s : List (ℝ × ℝ) × List (ℝ × ℝ)) (m : ℝ × ℝ)
    (hm : inverse_kinematics (m.1 - BASE_X) (BASE_Y - m.2) = none) :
    tick s m = (trailPush MAX_TRAIL_LENGTH s.1 m, s.2) := by
  unfold tick
  rw [hm]

lemma foldl_tick_unreachable (mice : List (ℝ × ℝ)) :
    ∀ s : List (ℝ × ℝ) × List (ℝ × ℝ),
      (∀ m ∈ mice, inverse_kinematics (m.1 - BASE_X) (BASE_Y - m.2) = none) →
        (mice.foldl tick s).2 = s.2 := by
  induction mice with
  | nil => intro s _; rfl
  | cons m rest ih =>
      intro s hall
      rw [List.foldl_cons, tick_unreachable s m (hall m (by simp))]
      exact ih _ fun m' hm' => hall m' (by simp [hm'])

/-! ### Inverting a `some` result of the solver -/

lemma ik_inv (x y t1 t2 k1 k2 : ℝ)
    (h : inverse_kinematics x y = some (t1, t2, k1, k2)) :
    Real.sqrt (x ^ 2 + y ^ 2) ≤ L1 + L2 ∧
      t1 = spec_theta1 x y ∧ t2 = spec_theta2 x y ∧
      k1 = spec_k1 x y ∧ k2 = spec_k2 x y := by
  by_cases hd : Real.sqrt (x ^ 2 + y ^ 2) ≤ L1 + L2
  · have he := ik_eval x y hd
    rw [h] at he
    simp only [Option.some.injEq, Prod.mk.injEq] at he
    exact ⟨hd, he.1, he.2.1, he.2.2.1, he.2.2.2⟩
  · rw [ik_none x y (not_le.mp hd)] at h
    exact absurd h (by simp)

/-- The end-effector position derived by `draw_arm`, converted back to
arm-local coordinates, reproduces the solver's input target exactly. -/
lemma pose_end_offset (x y : ℝ) (h : Real.sqrt (x ^ 2 + y ^ 2) ≤ L1 + L2) :
    (draw_arm_pose (spec_theta1 x y) (spec_theta2 x y)).2.2.1 - BASE_X = x ∧
    BASE_Y - (draw_arm_pose (spec_theta1 x y) (spec_theta2 x y)).2.2.2 = y := by
  have hfk := fk_eq x y h
  simp only [spec_k1, spec_k2] at hfk
  unfold draw_arm_pose
  rw [Real.cos_add, Real.sin_add]
  constructor
  · linear_combination hfk.1
  · linear_combination hfk.2

/-! ### Concrete evaluations -/

lemma sqrt_150 : Real.sqrt ((150:ℝ) ^ 2 + 0 ^ 2) = 150 := by
  rw [show ((150:ℝ) ^ 2 + 0 ^ 2) = 150 ^ 2 by norm_num,
    Real.sqrt_sq (by norm_num : (0:ℝ) ≤ 150)]

lemma sqrt_150_le : Real.sqrt ((150:ℝ) ^ 2 + 0 ^ 2) ≤ L1 + L2 := by
  rw [sqrt_150]
  norm_num [L1, L2]

lemma sqrt_400_gt : L1 + L2 < Real.sqrt ((400:ℝ) ^ 2 + 0 ^ 2) := by
  rw [show ((400:ℝ) ^ 2 + 0 ^ 2) = 400 ^ 2 by norm_num,
    Real.sqrt_sq (by norm_num : (0:ℝ) ≤ 400)]
  norm_num [L1, L2]

lemma ik_400_0 : inverse_kinematics 400 0 = none :=
  ik_none 400 0 sqrt_400_gt

lemma cos_two_pi_div_three : Real.cos (2 * Real.pi / 3) = -(1/2) := by
  rw [show (2 * Real.pi / 3) = Real.pi - Real.pi / 3 by ring, Real.cos_pi_sub,
    Real.cos_pi_div_three]

lemma sin_two_pi_div_three : Real.sin (2 * Real.pi / 3) = Real.sqrt 3 / 2 := by
  rw [show (2 * Real.pi / 3) = Real.pi - Real.pi / 3 by ring, Real.sin_pi_sub,
    Real.sin_pi_div_three]

lemma spec_cosTheta2_150 : spec_cosTheta2 150 0 = -(1/2) := by
  rw [spec_cosTheta2_eq_raw 150 0 sqrt_150_le]
  norm_num [L1, L2]

lemma spec_theta2_150 : spec_theta2 150 0 = 2 * Real.pi / 3 := by
  rw [spec_theta2, spec_cosTheta2_150, ← cos_two_pi_div_three,
    Real.arccos_cos (by positivity) (by linarith [Real.pi_pos])]

lemma spec_k1_150 : spec_k1 150 0 = 75 := by
  rw [spec_k1, spec_theta2_150, cos_two_pi_div_three]
  norm_num [L1, L2]

lemma spec_k2_150 : spec_k2 150 0 = 75 * Real.sqrt 3 := by
  rw [spec_k2, spec_theta2_150, sin_two_pi_div_three]
  norm_num [L2]
  ring

lemma atan2_zero_pos : atan2 0 150 = 0 := by
  unfold atan2
  rw [show ((150:ℝ):ℂ) + ((0:ℝ):ℂ) * Complex.I = ((150:ℝ):ℂ) by push_cast; ring]
  exact Complex.arg_ofReal_of_nonneg (by norm_num)

lemma atan2_k_150 : atan2 (75 * Real.sqrt 3) 75 = Real.pi / 3 := by
  unfold atan2
  have key : ((75:ℝ):ℂ) + ((75 * Real.sqrt 3 : ℝ):ℂ) * Complex.I =
      ((150:ℝ):ℂ) *
        (Complex.cos ((Real.pi / 3 : ℝ) : ℂ) + Complex.sin ((Real.pi / 3 : ℝ) : ℂ) * Complex.I) := by
    rw [← Complex.ofReal_cos, ← Complex.ofReal_sin, Real.cos_pi_div_three,
      Real.sin_pi_div_three]
    push_cast
    ring
  have hmem : Real.pi / 3 ∈ Set.Ioc (-Real.pi) Real.pi :=
    ⟨by linarith [Real.pi_pos], by linarith [Real.pi_pos]⟩
  rw [key, Complex.arg_real_mul _ (by norm_num : (0:ℝ) < 150),
    Complex.arg_cos_add_sin_mul_I hmem]

lemma spec_theta1_150 : spec_theta1 150 0 = -(Real.pi / 3) := by
  rw [spec_theta1, spec_k1_150, spec_k2_150, atan2_zero_pos, atan2_k_150]
  ring

lemma ik_150_0 : inverse_kinematics 150 0 =
    some (-(Real.pi / 3), 2 * Real.pi / 3, 75, 75 * Real.sqrt 3) := by
  rw [ik_eval 150 0 sqrt_150_le, spec_theta1_150, spec_theta2_150, spec_k1_150,
    spec_k2_150]

lemma BASE_X_eq : BASE_X = 333 := by norm_num [BASE_X, WIDTH]

lemma BASE_Y_eq : BASE_Y = 350 := by norm_num [BASE_Y, HEIGHT]

lemma pose_150 : draw_arm_pose (-(Real.pi / 3)) (2 * Real.pi / 3) =
    (408, 350 + 75 * Real.sqrt 3, 483, 350) := by
  have hc : Real.cos (-(Real.pi / 3)) = 1 / 2 := by
    rw [Real.cos_neg, Real.cos_pi_div_three]
  have hs : Real.sin (-(Real.pi / 3)) = -(Real.sqrt 3 / 2) := by
    rw [Real.sin_neg, Real.sin_pi_div_three]
  have harg : (-(Real.pi / 3) + 2 * Real.pi / 3) = Real.pi / 3 := by ring
  unfold draw_arm_pose
  rw [harg, hc, hs, Real.cos_pi_div_three, Real.sin_pi_div_three, BASE_X_eq, BASE_Y_eq]
  simp only [Prod.mk.injEq, L1, L2]
  refine ⟨by norm_num, by ring, by norm_num, by ring⟩

lemma sqrt_0_le : Real.sqrt ((0:ℝ) ^ 2 + 0 ^ 2) ≤ L1 + L2 := by
  rw [show ((0:ℝ) ^ 2 + 0 ^ 2) = 0 by norm_num, Real.sqrt_zero]
  norm_num [L1, L2]

lemma spec_cosTheta2_0 : spec_cosTheta2 0 0 = -1 := by
  rw [spec_cosTheta2_eq_raw 0 0 sqrt_0_le]
  norm_num [L1, L2]

lemma spec_theta2_0 : spec_theta2 0 0 = Real.pi := by
  rw [spec_theta2, spec_cosTheta2_0, Real.arccos_neg_one]

lemma spec_k1_0 : spec_k1 0 0 = 0 := by
  rw [spec_k1, spec_theta2_0, Real.cos_pi]
  norm_num [L1, L2]

lemma spec_k2_0 : spec_k2 0 0 = 0 := by
  rw [spec_k2, spec_theta2_0, Real.sin_pi]
  norm_num

lemma atan2_0_0 : atan2 0 0 = 0 := by
  unfold atan2
  rw [show ((0:ℝ):ℂ) + ((0:ℝ):ℂ) * Complex.I = 0 by push_cast; ring]
  exact Complex.arg_zero

lemma spec_theta1_0 : spec_theta1 0 0 = 0 := by
  rw [spec_theta1, spec_k1_0, spec_k2_0, atan2_0_0]
  ring

lemma ik_0_0 : inverse_kinematics 0 0 = some (0, Real.pi, 0, 0) := by
  rw [ik_eval 0 0 sqrt_0_le, spec_theta1_0, spec_theta2_0, spec_k1_0, spec_k2_0]

lemma acos_checked_clamp (c : ℝ) :
    acos_checked (max (-1) (min 1 c)) = .ok (Real.arccos (max (-1) (min 1 c))) := by
  unfold acos_checked
  rw [if_pos ⟨le_max_left _ _, max_le (by norm_num) (min_le_left _ _)⟩]

lemma checked_ok (x y : ℝ) :
    inverse_kinematics_checked x y = .ok (inverse_kinematics x y) := by
  unfold inverse_kinematics_checked inverse_kinematics
  by_cases hd : Real.sqrt (x ^ 2 + y ^ 2) > L1 + L2
  · rw [if_pos hd, if_pos hd]
  · rw [if_neg hd, if_neg hd]
    simp only [acos_checked_clamp]

/-! ### The claims -/

/-- Claim C1: a target whose Euclidean distance from the base is at most
`L1 + L2` yields a `some` (Reachable) result from the solver, and a
target whose distance strictly exceeds `L1 + L2` yields `none`
(Unreachable), with no angles computed and no error raised. -/
theorem C1_reachability_partition (x y u v : ℝ)
    (h₁ : Real.sqrt (x ^ 2 + y ^ 2) ≤ L1 + L2)
    (h₂ : L1 + L2 < Real.sqrt (u ^ 2 + v ^ 2)) :
    (inverse_kinematics x y).isSome = true ∧ inverse_kinematics u v = none := by
  constructor
  · rw [ik_eval x y h₁]
    rfl
  · exact ik_none u v h₂

/-- Witness for C1: the reachable target `(150, 0)` and the unreachable
target `(400, 0)`. -/
theorem C1_reachability_partition_witness :
    (inverse_kinematics 150 0).isSome = true ∧ inverse_kinematics 400 0 = none :=
  C1_reachability_partition 150 0 400 0 sqrt_150_le sqrt_400_gt

/-- Claim C2: on every reachable target the solver computes exactly the
values prescribed by the spec formulas: `theta2` is the arccosine of the
clamped `cosTheta2`, `k1 = L1 + L2·cos(theta2)`, `k2 = L2·sin(theta2)`,
and `theta1 = atan2(y, x) − atan2(k2, k1)`. -/
theorem C2_solver_follows_spec (x y : ℝ)
    (h : Real.sqrt (x ^ 2 + y ^ 2) ≤ L1 + L2) :
    inverse_kinematics x y =
      some (spec_theta1 x y, spec_theta2 x y, spec_k1 x y, spec_k2 x y) :=
  ik_eval x y h

/-- Witness for C2 at the reachable target `(150, 0)`. -/
theorem C2_solver_follows_spec_witness :
    inverse_kinematics 150 0 =
      some (spec_theta1 150 0, spec_theta2 150 0, spec_k1 150 0, spec_k2 150 0) :=
  C2_solver_follows_spec 150 0 sqrt_150_le

/-- Claim C3: the solver never raises a domain error for any target:
modelling `math.acos` as a fallible function, `inverse_kinematics_checked`
always returns `Except.ok` (agreeing with the total solver), because the
arccosine argument is clamped into `[-1, 1]` beforehand. -/
theorem C3_no_domain_error (x y : ℝ) :
    inverse_kinematics_checked x y = .ok (inverse_kinematics x y) ∧
      -1 ≤ spec_cosTheta2 x y ∧ spec_cosTheta2 x y ≤ 1 :=
  ⟨checked_ok x y, (spec_cosTheta2_bounds x y).1, (spec_cosTheta2_bounds x y).2⟩

/-- Claim C4: every `theta2` produced by a `some` result of the solver
lies in `[0, π]` (the principal arccosine branch; the negative elbow-up
value is never produced). -/
theorem C4_theta2_principal_branch (x y t1 t2 k1 k2 : ℝ)
    (h : inverse_kinematics x y = some (t1, t2, k1, k2)) :
    0 ≤ t2 ∧ t2 ≤ Real.pi := by
  obtain ⟨-, -, ht2, -, -⟩ := ik_inv x y t1 t2 k1 k2 h
  rw [ht2]
  exact ⟨Real.arccos_nonneg _, Real.arccos_le_pi _⟩

/-- Witness for C4: the solver result at `(150, 0)` has
`theta2 = 2π/3 ∈ [0, π]`. -/
theorem C4_theta2_principal_branch_witness :
    0 ≤ 2 * Real.pi / 3 ∧ 2 * Real.pi / 3 ≤ Real.pi :=
  C4_theta2_principal_branch 150 0 (-(Real.pi / 3)) (2 * Real.pi / 3) 75
    (75 * Real.sqrt 3) ik_150_0

/-- Claim C5: the pose computed by `draw_arm` satisfies the spec's
derivation: `joint = base + (L1·cos θ1, −L1·sin θ1)` and
`end = joint + (L2·cos(θ1+θ2), −L2·sin(θ1+θ2))`; being a total function
of the two angles it is pure, deterministic and has no failure mode. -/
theorem C5_pose_derivation (t1 t2 : ℝ) :
    (draw_arm_pose t1 t2).1 = (spec_joint t1).1 ∧
    (draw_arm_pose t1 t2).2.1 = (spec_joint t1).2 ∧
    (draw_arm_pose t1 t2).2.2.1 = (spec_end t1 t2).1 ∧
    (draw_arm_pose t1 t2).2.2.2 = (spec_end t1 t2).2 := by
  simp only [draw_arm_pose, spec_end, spec_joint]
  exact ⟨by ring_nf, by ring_nf, by ring_nf, by ring_nf⟩

/-- Claim C6: solving, deriving the pose, and re-solving the IK for the
end position expressed back in arm coordinates returns the same `theta1`
and `theta2` within `1e-6` radians (here: exactly). -/
theorem C6_roundtrip (x y t1 t2 k1 k2 : ℝ)
    (h : inverse_kinematics x y = some (t1, t2, k1, k2)) :
    ∃ t1' t2' k1' k2',
      inverse_kinematics ((draw_arm_pose t1 t2).2.2.1 - BASE_X)
          (BASE_Y - (draw_arm_pose t1 t2).2.2.2) = some (t1', t2', k1', k2') ∧
        |t1' - t1| ≤ 1 / 1000000 ∧ |t2' - t2| ≤ 1 / 1000000 := by
  obtain ⟨hd, ht1, ht2, hk1, hk2⟩ := ik_inv x y t1 t2 k1 k2 h
  have hoff := pose_end_offset x y hd
  rw [ht1, ht2, hoff.1, hoff.2]
  refine ⟨spec_theta1 x y, spec_theta2 x y, spec_k1 x y, spec_k2 x y,
    ik_eval x y hd, ?_, ?_⟩ <;>
    rw [sub_self, abs_zero] <;> norm_num

/-- Witness for C6: the round trip at the reachable target `(150, 0)`. -/
theorem C6_roundtrip_witness :
    ∃ t1' t2' k1' k2',
      inverse_kinematics
          ((draw_arm_pose (-(Real.pi / 3)) (2 * Real.pi / 3)).2.2.1 - BASE_X)
          (BASE_Y - (draw_arm_pose (-(Real.pi / 3)) (2 * Real.pi / 3)).2.2.2) =
        some (t1', t2', k1', k2') ∧
        |t1' - -(Real.pi / 3)| ≤ 1 / 1000000 ∧
        |t2' - 2 * Real.pi / 3| ≤ 1 / 1000000 :=
  C6_roundtrip 150 0 (-(Real.pi / 3)) (2 * Real.pi / 3) 75 (75 * Real.sqrt 3)
    ik_150_0

/-- Claim C7: each history buffer never exceeds its capacity (20 for the
pointer trail, 60 for the end-effector path), and inserting
`capacity + k` items into an empty buffer leaves exactly the last
`capacity` items in insertion order (FIFO eviction). -/
theorem C7_trail_capacity_fifo {α : Type} (xs ys : List α) (j k : ℕ)
    (hx : xs.length = MAX_TRAIL_LENGTH + j)
    (hy : ys.length = MAX_PATH_LENGTH + k) :
    (List.foldl (trailPush MAX_TRAIL_LENGTH) [] xs).length ≤ MAX_TRAIL_LENGTH ∧
    List.foldl (trailPush MAX_TRAIL_LENGTH) [] xs = xs.drop j ∧
    (List.foldl (trailPush MAX_PATH_LENGTH) [] ys).length ≤ MAX_PATH_LENGTH ∧
    List.foldl (trailPush MAX_PATH_LENGTH) [] ys = ys.drop k := by
  refine ⟨foldl_trailPush_length _ _, ?_, foldl_trailPush_length _ _, ?_⟩
  · rw [foldl_trailPush_nil, hx]
    congr 1
    omega
  · rw [foldl_trailPush_nil, hy]
    congr 1
    omega

/-- Witness for C7: 21 insertions into the capacity-20 buffer and 61
insertions into the capacity-60 buffer each drop exactly the oldest
item. -/
theorem C7_trail_capacity_fifo_witness :
    (List.foldl (trailPush MAX_TRAIL_LENGTH) [] (List.range 21)).length ≤
        MAX_TRAIL_LENGTH ∧
    List.foldl (trailPush MAX_TRAIL_LENGTH) [] (List.range 21) =
        (List.range 21).drop 1 ∧
    (List.foldl (trailPush MAX_PATH_LENGTH) [] (List.range 61)).length ≤
        MAX_PATH_LENGTH ∧
    List.foldl (trailPush MAX_PATH_LENGTH) [] (List.range 61) =
        (List.range 61).drop 1 :=
  C7_trail_capacity_fifo (List.range 21) (List.range 61) 1 1
    (by simp [MAX_TRAIL_LENGTH]) (by simp [MAX_PATH_LENGTH])

/-- Claim C8: a frame whose IK solve returns `none` leaves the
end-effector path buffer completely unchanged, so the path does not grow
over any run of consecutive unreachable frames. -/
theorem C8_path_frozen_when_unreachable (trail path : List (ℝ × ℝ))
    (mice : List (ℝ × ℝ))
    (h : ∀ m ∈ mice, inverse_kinematics (m.1 - BASE_X) (BASE_Y - m.2) = none) :
    (List.foldl tick (trail, path) mice).2 = path :=
  foldl_tick_unreachable mice (trail, path) h

/-- Witness for C8: one unreachable frame (mouse at `(733, 350)`, i.e.
target `(400, 0)`) leaves a one-point path untouched. -/
theorem C8_path_frozen_when_unreachable_witness :
    (List.foldl tick (([] : List (ℝ × ℝ)), [((483:ℝ), (350:ℝ))])
        [((733:ℝ), (350:ℝ))]).2 = [((483:ℝ), (350:ℝ))] :=
  C8_path_frozen_when_unreachable [] [((483:ℝ), (350:ℝ))] [((733:ℝ), (350:ℝ))]
    (by
      intro m hm
      simp only [List.mem_singleton] at hm
      subst hm
      rw [show ((733:ℝ), (350:ℝ)).1 - BASE_X = 400 by rw [BASE_X_eq]; norm_num,
        show BASE_Y - ((733:ℝ), (350:ℝ)).2 = 0 by rw [BASE_Y_eq]; norm_num]
      exact ik_400_0)

/-- Claim C9: with `L1 = L2 = 150` and base `(333, 350)`: the target
`(150, 0)` is at distance `150 ≤ 300`, the solver returns a `some`
result with `cosTheta2 = −1/2`, `theta2 = 2π/3`, `theta1 = −π/3`,
`k1 = 75`, `k2 = 75√3`, and the derived pose is
`joint = (408, 350 + 75√3)`, `end = (483, 350)`; the target `(400, 0)`
is at distance `400 > 300` and the solver returns `none`. -/
theorem C9_concrete_scenarios :
    Real.sqrt ((150:ℝ) ^ 2 + 0 ^ 2) = 150 ∧ (150:ℝ) ≤ L1 + L2 ∧
    ((150:ℝ) ^ 2 + 0 ^ 2 - L1 ^ 2 - L2 ^ 2) / (2 * L1 * L2) = -(1/2) ∧
    spec_cosTheta2 150 0 = -(1/2) ∧
    inverse_kinematics 150 0 =
      some (-(Real.pi / 3), 2 * Real.pi / 3, 75, 75 * Real.sqrt 3) ∧
    draw_arm_pose (-(Real.pi / 3)) (2 * Real.pi / 3) =
      (408, 350 + 75 * Real.sqrt 3, 483, 350) ∧
    Real.sqrt ((400:ℝ) ^ 2 + 0 ^ 2) = 400 ∧ L1 + L2 < (400:ℝ) ∧
    inverse_kinematics 400 0 = none := by
  refine ⟨sqrt_150, by norm_num [L1, L2], by norm_num [L1, L2],
    spec_cosTheta2_150, ik_150_0, pose_150, ?_, by norm_num [L1, L2], ik_400_0⟩
  rw [show ((400:ℝ) ^ 2 + 0 ^ 2) = 400 ^ 2 by norm_num,
    Real.sqrt_sq (by norm_num : (0:ℝ) ≤ 400)]

/-- Claim C10: the target at the arm base, `(0, 0)`, is reachable: the
raw cosine is exactly `−1` (the clamp keeps it at `−1`), `theta2 = π`,
`k1 = k2 = 0`, `theta1 = 0`, the checked solver raises no error, and
`atan2` applied to two zero arguments returns `0`. -/
theorem C10_target_at_base :
    ((0:ℝ) ^ 2 + 0 ^ 2 - L1 ^ 2 - L2 ^ 2) / (2 * L1 * L2) = -1 ∧
    spec_cosTheta2 0 0 = -1 ∧
    inverse_kinematics 0 0 = some (0, Real.pi, 0, 0) ∧
    inverse_kinematics_checked 0 0 = .ok (some (0, Real.pi, 0, 0)) ∧
    atan2 0 0 = 0 := by
  refine ⟨by norm_num [L1, L2], spec_cosTheta2_0, ik_0_0, ?_, atan2_0_0⟩
  rw [checked_ok 0 0, ik_0_0]

end

end Arm
